import Mathlib

/-!
Verification of the `sync-to-external` replication gateway
(`src/supabase/functions/sync-to-external/index.ts`).

The gateway receives a `SyncPayload` `{operation, table, data?, id?}` and
applies it to a secondary (external) database, tolerating schema drift by
adaptively dropping columns the secondary reports as missing (PostgREST
error code PGRST204) and retrying, up to 10 attempts.

Shallow embedding:
* a row is an association list of column name to value;
* a JSON payload (`data`) is either an object row, an array of items
  (each an object row or a non-object primitive), or a primitive;
* the secondary store's upsert endpoint is modelled as a response oracle
  `Respond : Nat → Jx → Option DbError` (attempt index and payload to
  optional error), so that arbitrary external behaviours — including the
  pathological ones exercised by the testable properties — can be stated;
* a concrete schema-checking secondary store (`SecondaryTable`,
  `schemaRespond`) instantiates the oracle for end-to-end claims;
* `applyGateway` embeds the operation switch, threading the state of both
  stores explicitly and returning the response body or the thrown error.
-/

namespace SyncGateway

/-- A cell value. The gateway treats values opaquely; strings suffice. -/
abbrev Value := String

/-- A row: an association list of column name to value, mirroring a JSON
object `Record<string, unknown>`. -/
abbrev Row := List (String × Value)

/-- Look up a column's value in a row (first occurrence wins, as in a JSON
object). -/
def lookupCol : Row → String → Option Value
  | [], _ => none
  | (k, v) :: rest, c => if k = c then some v else lookupCol rest c

/-- An element of a JSON array payload: either an object row or a
non-object value (primitive or nested array), kept opaque because
`removeColumnFromData` passes non-objects through unchanged. -/
inductive JItem where
  | obj (r : Row)
  | prim (tag : String)
deriving DecidableEq, Repr

/-- A JSON payload as accepted by `upsertWithAutoDrop`: an object, an
array of items, or a non-object value. -/
inductive Jx where
  | obj (r : Row)
  | arr (items : List JItem)
  | prim (tag : String)
deriving DecidableEq, Repr

/-- `removeFromRow` from `removeColumnFromData`: copy the row without the
named column (`delete copy[column]`). -/
def removeFromRow (row : Row) (column : String) : Row :=
  row.filter (fun p => p.1 ≠ column)

/-- Column removal for a single array item: objects lose the column,
non-objects pass through (`item && typeof item === "object" &&
!Array.isArray(item)` branch). -/
def removeFromItem (item : JItem) (column : String) : JItem :=
  match item with
  | .obj r => .obj (removeFromRow r column)
  | other => other

/-- `removeColumnFromData` (index.ts lines 51–71): remove `column` from
every object row of the payload, leaving non-object data untouched. -/
def removeColumnFromData (raw : Jx) (column : String) : Jx :=
  match raw with
  | .arr items => .arr (items.map (fun item => removeFromItem item column))
  | .obj r => .obj (removeFromRow r column)
  | other => other

/-- An error object returned by the store client: `{code?, message?}`. -/
structure DbError where
  code : Option String
  message : Option String
deriving DecidableEq, Repr

/-- JavaScript truthiness of the optional `message` string (`message &&`):
present and non-empty. -/
def msgTruthy : Option String → Bool
  | none => false
  | some s => !s.data.isEmpty

/-- The ASCII single-quote character used by the PostgREST message. -/
def quoteChar : Char := Char.ofNat 39

/-- Drop an expected literal character sequence from the front of the
input, returning the remainder, or `none` if it does not match. -/
def dropLit : List Char → List Char → Option (List Char)
  | [], cs => some cs
  | _ :: _, [] => none
  | p :: ps, c :: cs => if c = p then dropLit ps cs else none

/-- The literal before the capture group of the regex
`Could not find the '([^']+)' column`. -/
def missingColOpen : List Char := "Could not find the ".data ++ [quoteChar]

/-- The literal after the capture group of the regex. -/
def missingColClose : List Char := [quoteChar] ++ " column".data

/-- Try to match the missing-column regex at the start of the input:
the opening literal, then a non-empty run of non-quote characters
(the capture), then the closing literal. -/
def matchMissingAt (cs : List Char) : Option String :=
  match dropLit missingColOpen cs with
  | none => none
  | some rest =>
    let cap := rest.takeWhile (fun c => !(c == quoteChar))
    let rest2 := rest.dropWhile (fun c => !(c == quoteChar))
    if cap.isEmpty then none
    else
      match dropLit missingColClose rest2 with
      | none => none
      | some _ => some (String.mk cap)

/-- Scan the message left to right for the first match of the regex,
as `message.match(/Could not find the '([^']+)' column/)` does. Because
the capture class excludes the quote character, matching is deterministic
and needs no backtracking inside the capture. -/
def extractFromChars : List Char → Option String
  | [] => none
  | c :: cs =>
    match matchMissingAt (c :: cs) with
    | some s => some s
    | none => extractFromChars cs

/-- The capture group of
`message.match(/Could not find the '([^']+)' column/)` (line 90). -/
def extractMissingColumn (msg : String) : Option String :=
  extractFromChars msg.data

/-- Errors `upsertWithAutoDrop` can throw: a store error rethrown as-is,
or the synthesized exhausted-retry error (line 107), which names the
columns dropped so far. -/
inductive SyncError where
  | store (e : DbError)
  | exhausted (droppedColumns : List String)
deriving DecidableEq, Repr

/-- The successful return of `upsertWithAutoDrop`: the payload accepted by
the secondary store (hence the data actually written) and the columns
dropped along the way. -/
structure UpsertOk where
  sent : Jx
  droppedColumns : List String
deriving DecidableEq, Repr

/-- The behaviour of the secondary store's upsert endpoint: given the
attempt index and the payload sent, report `none` (success) or an error.
Indexing by attempt lets the embedding express pathological stores whose
answers change between attempts. -/
abbrev Respond := Nat → Jx → Option DbError

/-- One unrolling of the retry loop of `upsertWithAutoDrop` (lines
77–105), with the remaining iterations as fuel (the source runs
`attempt = 0, …, 9`, so the top-level call passes fuel 10). Besides the
source's return value, the embedding also returns the trace of attempts
actually issued to the store — the payload sent and the dropped-column
list at each attempt — so that claims about the number of attempts can be
stated. -/
def upsertStep (respond : Respond) :
    Nat → Nat → Jx → List String →
    (Except SyncError UpsertOk) × List (Jx × List String)
  | 0, _, _, droppedColumns => (.error (.exhausted droppedColumns), [])
  | fuel + 1, attempt, dataToSend, droppedColumns =>
    match respond attempt dataToSend with
    | none => (.ok ⟨dataToSend, droppedColumns⟩, [(dataToSend, droppedColumns)])
    | some e =>
      if e.code = some "PGRST204" then
        if msgTruthy e.message then
          match extractMissingColumn (e.message.getD "") with
          | some missingColumn =>
            if missingColumn ∈ droppedColumns then
              (.error (.store e), [(dataToSend, droppedColumns)])
            else
              let next := upsertStep respond fuel (attempt + 1)
                (removeColumnFromData dataToSend missingColumn)
                (droppedColumns ++ [missingColumn])
              (next.1, (dataToSend, droppedColumns) :: next.2)
          | none => (.error (.store e), [(dataToSend, droppedColumns)])
        else (.error (.store e), [(dataToSend, droppedColumns)])
      else (.error (.store e), [(dataToSend, droppedColumns)])

/-- `upsertWithAutoDrop` (lines 73–110): attempt the upsert, dropping a
freshly-reported missing column and retrying, for at most 10 attempts. -/
def upsertWithAutoDrop (respond : Respond) (rawData : Jx) :
    (Except SyncError UpsertOk) × List (Jx × List String) :=
  upsertStep respond 10 0 rawData []

/-! ### A concrete secondary store

The external database is modelled as, per table, a set of known columns
(its schema) and the stored rows. Its upsert endpoint accepts a payload
exactly when every column of every row is known, and otherwise reports
PGRST204 naming the first unknown column, with the PostgREST message
wording the gateway's regex parses. A successful upsert merges each
payload row into the table keyed by the `id` column
(`upsert(…, { onConflict: "id" })`). -/

/-- The object rows contained in a payload, in order (what the store's
upsert endpoint operates on). -/
def rowsOf : Jx → List Row
  | .obj r => [r]
  | .arr items => items.filterMap (fun item =>
      match item with
      | .obj r => some r
      | .prim _ => none)
  | .prim _ => []

/-- First column of the row that is not in the schema, scanning keys in
order. -/
def firstUnknownInRow (schema : List String) : Row → Option String
  | [] => none
  | (k, _) :: rest =>
    if k ∈ schema then firstUnknownInRow schema rest else some k

/-- First unknown column across the payload's rows, in order. -/
def firstUnknownColumn (schema : List String) : List Row → Option String
  | [] => none
  | r :: rs =>
    match firstUnknownInRow schema r with
    | some c => some c
    | none => firstUnknownColumn schema rs

/-- The string consisting of one single-quote character. -/
def quoteStr : String := String.mk [quoteChar]

/-- The PostgREST PGRST204 message for a missing column:
`Could not find the 'col' column of 'table' in the schema cache`. -/
def pgrstMessage (column tableName : String) : String :=
  "Could not find the " ++ quoteStr ++ column ++ quoteStr ++ " column of " ++
    quoteStr ++ tableName ++ quoteStr ++ " in the schema cache"

/-- The PGRST204 error object a schema-checking store produces. -/
def pgrstError (column tableName : String) : DbError :=
  ⟨some "PGRST204", some (pgrstMessage column tableName)⟩

/-- One table of the secondary store: its known columns and its rows. -/
structure SecondaryTable where
  schema : List String
  rows : List Row
deriving DecidableEq, Repr

/-- The upsert response of a schema-checking secondary store: reject the
payload with PGRST204 naming the first unknown column, else accept. The
response does not depend on the attempt index. -/
def schemaRespond (schema : List String) (tableName : String) : Respond :=
  fun _ payload =>
    match firstUnknownColumn schema (rowsOf payload) with
    | some c => some (pgrstError c tableName)
    | none => none

/-- The `id` column of a row, the conflict key of the upsert. -/
def rowId (r : Row) : Option Value := lookupCol r "id"

/-- Merge an upserted row into an existing row with the same key:
payload columns overwrite, other stored columns survive (Postgres
`ON CONFLICT (id) DO UPDATE` of the payload's columns). -/
def mergeRow (old upd : Row) : Row :=
  old.filter (fun p => (lookupCol upd p.1).isNone) ++ upd

/-- Upsert one row into the stored rows, keyed by the `id` column: update
rows sharing the key, insert otherwise. -/
def upsertRow (rows : List Row) (r : Row) : List Row :=
  if rows.any (fun old => rowId old == rowId r) then
    rows.map (fun old => if rowId old == rowId r then mergeRow old r else old)
  else rows ++ [r]

/-- Apply an accepted upsert payload to the stored rows, row by row. -/
def applyRows (rows : List Row) (batch : List Row) : List Row :=
  batch.foldl upsertRow rows

/-- Run `upsertWithAutoDrop` against a schema-checking table: on success
the accepted payload's rows are written to the table. A failed attempt
writes nothing. -/
def upsertIntoStore (tbl : SecondaryTable) (tableName : String) (raw : Jx) :
    Except SyncError (SecondaryTable × List String) :=
  match (upsertWithAutoDrop (schemaRespond tbl.schema tableName) raw).1 with
  | .error e => .error e
  | .ok ok =>
    .ok ({ tbl with rows := applyRows tbl.rows (rowsOf ok.sent) },
         ok.droppedColumns)

/-! ### The gateway: payload, stores, and the operation switch -/

/-- `SyncOperation` (line 9). -/
inductive SyncOperation where
  | INSERT
  | UPDATE
  | DELETE
  | SYNC_ALL
deriving DecidableEq, Repr

/-- `SyncPayload` (lines 11–16). -/
structure SyncPayload where
  operation : SyncOperation
  table : String
  data : Option Jx
  id : Option String
deriving DecidableEq, Repr

/-- Association-list lookup keyed by string, used for the allow-list
constant and for the stores' table maps. -/
def lookupAssoc {β : Type} : List (String × β) → String → Option β
  | [], _ => none
  | (k, v) :: rest, key => if k = key then some v else lookupAssoc rest key

/-- The `tableColumns` constant (lines 153–165), verbatim: per-table
comma-separated select strings of the columns the external database is
expected to have. -/
def tableColumnsSrc : List (String × String) :=
  [("students",
    "id, student_id, name, email, phone, gender, department_id, semester, status, created_at, updated_at, enrollment_date"),
   ("courses",
    "id, code, name, description, credits, department_id, instructor_id, semester, created_at, updated_at"),
   ("departments", "id, code, name, description, head_name, created_at, updated_at"),
   ("instructors",
    "id, name, email, phone, department_id, qualification, specialization, created_at, updated_at"),
   ("enrollments", "id, student_id, course_id, enrollment_date, status, created_at"),
   ("attendance", "id, student_id, course_id, date, status, remarks, created_at"),
   ("results",
    "id, student_id, course_id, exam_type, marks_obtained, total_marks, grade, remarks, created_at, updated_at")]

/-- `const columns = tableColumns[table] || "*"` (line 167). -/
def columnsArg (table : String) : String :=
  (lookupAssoc tableColumnsSrc table).getD "*"

/-- Split a comma-separated select string on the separator `", "`, as the
primary store's select endpoint parses the column list. -/
def splitColsAux : List Char → List Char → List String
  | [], acc => [String.mk acc.reverse]
  | ',' :: ' ' :: rest, acc => String.mk acc.reverse :: splitColsAux rest []
  | c :: rest, acc => splitColsAux rest (c :: acc)

/-- The column names of a select string. -/
def splitCols (s : String) : List String :=
  splitColsAux s.data []

/-- Project a row onto a set of selected columns. -/
def projectRow (cols : List String) (r : Row) : Row :=
  r.filter (fun p => p.1 ∈ cols)

/-- The primary store's `select(columns)`: all columns for `"*"`, else
each row projected to the named columns. -/
def selectRows (colArg : String) (rows : List Row) : List Row :=
  if colArg = "*" then rows else rows.map (projectRow (splitCols colArg))

/-- Structural worker for the SYNC_ALL batch slicing. The fuel only
serves termination: every step consumes at least one element, so any
fuel of at least the list's length yields the slicing
`l.take 100 :: … (l.drop 100)`. -/
def chunks100Go : Nat → List α → List (List α)
  | _, [] => []
  | 0, _ :: _ => []
  | fuel + 1, l@(_ :: _) => l.take 100 :: chunks100Go fuel (l.drop 100)

/-- The SYNC_ALL batch slicing (lines 184–186): successive slices of 100
rows, `allData.slice(i, i + 100)` for `i = 0, 100, 200, …`. -/
def chunks100 (l : List α) : List (List α) :=
  chunks100Go l.length l

/-- `droppedSet.add` over one batch's dropped columns: insert each column
not already present, preserving insertion order (a JavaScript `Set`). -/
def addAll (acc : List String) (d : List String) : List String :=
  d.foldl (fun a c => if c ∈ a then a else a ++ [c]) acc

/-- The outcome of the SYNC_ALL batch loop: the secondary table after the
batches that were applied, the accumulated deduplicated dropped-column
set, the per-batch dropped-column lists (for batches that succeeded), and
the error that stopped the loop, if any. -/
structure BatchRun where
  table : SecondaryTable
  dropped : List String
  perBatch : List (List String)
  failure : Option SyncError
deriving DecidableEq, Repr

/-- The SYNC_ALL batch loop (lines 183–194): apply each batch in order
through `upsertWithAutoDrop`, accumulating dropped columns; a thrown
error stops the loop, leaving the batches already applied in place. -/
def runBatches (tableName : String) (tbl : SecondaryTable)
    (acc : List String) : List (List Row) → BatchRun
  | [] => ⟨tbl, acc, [], none⟩
  | b :: bs =>
    match upsertIntoStore tbl tableName (Jx.arr (b.map JItem.obj)) with
    | .error e => ⟨tbl, acc, [], some e⟩
    | .ok (tbl2, d) =>
      let rest := runBatches tableName tbl2 (addAll acc d) bs
      ⟨rest.table, rest.dropped, d :: rest.perBatch, rest.failure⟩

/-- The secondary store: a map from table name to table state. -/
abbrev SecondaryDb := List (String × SecondaryTable)

/-- The table of the secondary store addressed by `.from(tableName)`. -/
def getTable (db : SecondaryDb) (name : String) : SecondaryTable :=
  (lookupAssoc db name).getD ⟨[], []⟩

/-- Replace (or create) a table of the secondary store. -/
def setTable (db : SecondaryDb) (name : String) (tbl : SecondaryTable) :
    SecondaryDb :=
  if db.any (fun kv => kv.1 == name) then
    db.map (fun kv => if kv.1 == name then (name, tbl) else kv)
  else db ++ [(name, tbl)]

/-- The full gateway state: the primary store's tables (read by SYNC_ALL)
and the secondary store's tables. -/
structure GatewayState where
  primary : List (String × List Row)
  secondary : SecondaryDb
deriving DecidableEq, Repr

/-- The `result` value of a successful request (lines 119, 134,
196–200). -/
inductive SyncResult where
  | upserted (droppedColumns : List String)
  | deleted (id : Option String)
  | syncedAll (synced : Nat) (table : String) (droppedColumns : List String)
deriving DecidableEq, Repr

/-- The operation switch (lines 112–208), against the schema-checking
secondary store. The pair returned is the state of both stores after the
call (external stores persist across a thrown error) and the response:
the `result` value, or the error that was thrown. -/
def applyGateway (st : GatewayState) (p : SyncPayload) :
    GatewayState × Except SyncError SyncResult :=
  match p.operation with
  | .INSERT | .UPDATE =>
    let tbl := getTable st.secondary p.table
    let raw := p.data.getD (Jx.prim "undefined")
    match upsertIntoStore tbl p.table raw with
    | .error e => (st, .error e)
    | .ok (tbl2, droppedColumns) =>
      ({ st with secondary := setTable st.secondary p.table tbl2 },
       .ok (.upserted droppedColumns))
  | .DELETE =>
    let tbl := getTable st.secondary p.table
    let tbl2 : SecondaryTable :=
      { tbl with rows := tbl.rows.filter (fun r => !(rowId r == p.id)) }
    ({ st with secondary := setTable st.secondary p.table tbl2 },
     .ok (.deleted p.id))
  | .SYNC_ALL =>
    let primRows := (lookupAssoc st.primary p.table).getD []
    let allData := selectRows (columnsArg p.table) primRows
    let tbl := getTable st.secondary p.table
    let run := runBatches p.table tbl [] (chunks100 allData)
    match run.failure with
    | some e =>
      ({ st with secondary := setTable st.secondary p.table run.table },
       .error e)
    | none =>
      ({ st with secondary := setTable st.secondary p.table run.table },
       .ok (.syncedAll allData.length p.table run.dropped))

/-! ### Concrete scenarios used by the claims -/

/-- The dropped-column list recorded in an `upsertWithAutoDrop` outcome:
returned on success, carried by the exhausted-retry error, and empty for
a rethrown store error (nothing was dropped at the rethrow). -/
def droppedOf : Except SyncError UpsertOk → List String
  | .ok o => o.droppedColumns
  | .error (.exhausted d) => d
  | .error (.store _) => []

/-- Auto-drop scenario: the secondary `students` table knows only `id`
and `name`, so it rejects exactly `ghost_column`. -/
def c1State : GatewayState := ⟨[], [("students", ⟨["id", "name"], []⟩)]⟩

/-- A row with columns `{id, name, ghost_column}`. -/
def c1Row : Row := [("id", "s1"), ("name", "Alice"), ("ghost_column", "x")]

/-- The Create request carrying `c1Row`. -/
def c1Payload : SyncPayload := ⟨.INSERT, "students", some (.obj c1Row), none⟩

/-- A pathological secondary store that reports a different, fresh
missing column (`g0`, `g1`, `g2`, …) on every attempt — infinitely many
distinct columns, so certainly at least 11. -/
def c2Respond : Respond := fun attempt _ =>
  some (pgrstError ("g" ++ toString attempt) "students")

/-- The payload sent to the pathological store. -/
def c2Data : Jx := .obj [("id", "1")]

/-- A permission-denied error, which is not the missing-column
signature. -/
def c3Err : DbError := ⟨some "42501", some "permission denied for table students"⟩

/-- A secondary store that fails every attempt with `c3Err`. -/
def c3Respond : Respond := fun _ _ => some c3Err

/-- ResyncAll scenario: the primary `students` table holds 250 rows and
the secondary knows the `id` column. -/
def c4State : GatewayState :=
  ⟨[("students", List.replicate 250 [("id", "r1")])],
   [("students", ⟨["id"], []⟩)]⟩

/-- The ResyncAll request for the `students` table. -/
def c4Payload : SyncPayload := ⟨.SYNC_ALL, "students", none, none⟩

/-- The Boolean test of the missing-column signature the retry loop keys
on: PGRST204 code, a truthy message, and a message the regex matches. -/
def isMissingColumnError (e : DbError) : Bool :=
  (e.code == some "PGRST204") && msgTruthy e.message &&
    (extractMissingColumn (e.message.getD "")).isSome

/-- ColumnAllowList modelled from the spec: the same per-table allow-list
written as the spec describes it, an ordered list of column names per
table (section 3, "ColumnAllowList"). Compared against the source's
comma-separated `tableColumns` strings in claim C5. -/
def specColumnAllowList : List (String × List String) :=
  [("students",
    ["id", "student_id", "name", "email", "phone", "gender", "department_id",
     "semester", "status", "created_at", "updated_at", "enrollment_date"]),
   ("courses",
    ["id", "code", "name", "description", "credits", "department_id",
     "instructor_id", "semester", "created_at", "updated_at"]),
   ("departments",
    ["id", "code", "name", "description", "head_name", "created_at", "updated_at"]),
   ("instructors",
    ["id", "name", "email", "phone", "department_id", "qualification",
     "specialization", "created_at", "updated_at"]),
   ("enrollments",
    ["id", "student_id", "course_id", "enrollment_date", "status", "created_at"]),
   ("attendance",
    ["id", "student_id", "course_id", "date", "status", "remarks", "created_at"]),
   ("results",
    ["id", "student_id", "course_id", "exam_type", "marks_obtained",
     "total_marks", "grade", "remarks", "created_at", "updated_at"])]

/-- The projection the spec prescribes for the ResyncAll read: the
allow-list entry when one exists, all columns otherwise. -/
def specSelect (table : String) (rows : List Row) : List Row :=
  match lookupAssoc specColumnAllowList table with
  | some cols => rows.map (projectRow cols)
  | none => rows

/-- A batch that one upsert succeeds on: a single row the schema knows. -/
def c9Ok : Row := [("id", "a")]

/-- A batch that fails fatally: a row with 11 unknown columns exhausts
the 10-attempt budget. -/
def c9Bad : Row :=
  [("id", "b"), ("g1", "1"), ("g2", "2"), ("g3", "3"), ("g4", "4"),
   ("g5", "5"), ("g6", "6"), ("g7", "7"), ("g8", "8"), ("g9", "9"),
   ("g10", "10"), ("g11", "11")]

/-- The initial secondary table of the failing-batch scenario. -/
def c9Tbl : SecondaryTable := ⟨["id"], []⟩

/-- Two batches: the first succeeds, the second fails fatally. -/
def c9Bs : List (List Row) := [[c9Ok], [c9Bad]]

/-- The error the second batch fails with: retries exhausted after the
first ten unknown columns were dropped. -/
def c9Err : SyncError :=
  .exhausted ["g1", "g2", "g3", "g4", "g5", "g6", "g7", "g8", "g9", "g10"]

/-- The strict-extension relation between consecutive attempt-trace
entries: the later attempt's dropped list is the earlier one's plus one
fresh column. -/
def dropStep (a b : Jx × List String) : Prop :=
  ∃ c, c ∉ a.2 ∧ b.2 = a.2 ++ [c]

/-- A store that always reports the same already-known missing column. -/
def c10Respond : Respond := fun _ _ => some (pgrstError "g" "t")

/-! ## Theorems -/

/-- Looking up the removed column after `removeFromRow` finds nothing. -/
theorem lookupCol_removeFromRow (r : Row) (c : String) :
    lookupCol (removeFromRow r c) c = none := by
  induction r with
  | nil => rfl
  | cons p rest ih =>
    unfold removeFromRow at *
    rw [List.filter_cons]
    split
    · rename_i hkeep
      obtain ⟨k, v⟩ := p
      have h : k ≠ c := by simpa using hkeep
      rw [lookupCol, if_neg h]
      exact ih
    · exact ih

/-- Every object row of an array payload lacks the removed column after
`removeColumnFromData`. -/
theorem rowsOf_removeColumnFromData_arr (items : List JItem) (c : String) :
    (rowsOf (removeColumnFromData (.arr items) c)).all
      (fun r => (lookupCol r c).isNone) = true := by
  induction items with
  | nil => rfl
  | cons item rest ih =>
    cases item with
    | obj r =>
      simp only [removeColumnFromData, List.map_cons, removeFromItem,
        rowsOf, List.filterMap_cons] at *
      simp only [List.all_cons, ih, Bool.and_true]
      simp [lookupCol_removeFromRow]
    | prim t =>
      simp only [removeColumnFromData, List.map_cons, removeFromItem,
        rowsOf, List.filterMap_cons] at *
      exact ih

/-- C1: a Create on a row `{id, name, ghost_column}` against a secondary
store that rejects exactly `ghost_column` succeeds, returns the dropped
set `{ghost_column}`, and the row written to the secondary store has no
`ghost_column` field; in general `removeColumnFromData` removes the
column from every row of an array payload before the retry. -/
theorem claim_C1_auto_drop_convergence :
    (applyGateway c1State c1Payload).2 = .ok (.upserted ["ghost_column"]) ∧
    (getTable (applyGateway c1State c1Payload).1.secondary "students").rows =
      [[("id", "s1"), ("name", "Alice")]] ∧
    ∀ (items : List JItem) (c : String),
      (rowsOf (removeColumnFromData (.arr items) c)).all
        (fun r => (lookupCol r c).isNone) = true :=
  ⟨by rfl, by rfl, rowsOf_removeColumnFromData_arr⟩

/-- C2: against a pathological store reporting a fresh missing column on
every attempt, the retry loop makes exactly 10 upsert attempts and fails
with the exhausted-retry error listing exactly the 10 columns dropped so
far; the 11th column `g10` is never reached. -/
theorem claim_C2_retry_bound :
    (upsertWithAutoDrop c2Respond c2Data).1 =
      .error (.exhausted
        ["g0", "g1", "g2", "g3", "g4", "g5", "g6", "g7", "g8", "g9"]) ∧
    (upsertWithAutoDrop c2Respond c2Data).2.length = 10 ∧
    (droppedOf (upsertWithAutoDrop c2Respond c2Data).1).length = 10 ∧
    "g10" ∉ droppedOf (upsertWithAutoDrop c2Respond c2Data).1 :=
  ⟨by rfl, by rfl, by rfl, by decide⟩

/-- An attempt whose error is not the missing-column signature is
rethrown at once, with the single attempt traced and the dropped list it
held at the throw. -/
theorem upsertStep_throw (respond : Respond) (fuel attempt : Nat)
    (data : Jx) (dropped : List String) (e : DbError)
    (h : respond attempt data = some e)
    (hm : isMissingColumnError e = false) :
    upsertStep respond (fuel + 1) attempt data dropped =
      (.error (.store e), [(data, dropped)]) := by
  simp only [upsertStep, h]
  by_cases hc : e.code = some "PGRST204"
  · rw [if_pos hc]
    by_cases ht : msgTruthy e.message = true
    · rw [if_pos ht]
      cases hx : extractMissingColumn (e.message.getD "") with
      | none => simp [hx]
      | some c =>
        exfalso
        simp [isMissingColumnError, hc, ht, hx] at hm
    · rw [if_neg ht]
  · rw [if_neg hc]

/-- C3: if the first upsert attempt fails with any error that is not the
missing-column signature, the call fails immediately with that error —
the trace shows a single attempt, made with an empty dropped-column
list, so no retry happens and zero columns are recorded as dropped. -/
theorem claim_C3_non_column_error_not_retried (respond : Respond)
    (raw : Jx) (e : DbError)
    (h : respond 0 raw = some e)
    (hm : isMissingColumnError e = false) :
    upsertWithAutoDrop respond raw = (.error (.store e), [(raw, [])]) :=
  upsertStep_throw respond 9 0 raw [] e h hm

/-- Witness for C3: a permission-denied error on the first attempt is
fatal at once, with one attempt traced and nothing dropped. -/
theorem claim_C3_witness :
    upsertWithAutoDrop c3Respond (Jx.obj [("id", "1")]) =
      (.error (.store c3Err), [(Jx.obj [("id", "1")], [])]) :=
  claim_C3_non_column_error_not_retried c3Respond (Jx.obj [("id", "1")])
    c3Err rfl (by decide)

/-- Appending behaves as expected under `lookupAssoc`: the left list is
consulted first. -/
theorem lookupAssoc_append {β : Type} (l1 l2 : List (String × β)) (k : String) :
    lookupAssoc (l1 ++ l2) k =
      match lookupAssoc l1 k with
      | some v => some v
      | none => lookupAssoc l2 k := by
  induction l1 with
  | nil => rfl
  | cons kv rest ih =>
    obtain ⟨k', v'⟩ := kv
    by_cases h : k' = k
    · simp [lookupAssoc, h]
    · simp only [List.cons_append, lookupAssoc, if_neg h]
      exact ih

/-- Looking up a key that was overwritten in place finds the new value. -/
theorem lookupAssoc_map_set {db : SecondaryDb} {name : String}
    (tbl : SecondaryTable)
    (h : db.any (fun kv => kv.1 == name) = true) :
    lookupAssoc
      (db.map (fun kv => if kv.1 == name then (name, tbl) else kv)) name =
      some tbl := by
  induction db with
  | nil => simp at h
  | cons kv rest ih =>
    rw [List.map_cons]
    by_cases hk : (kv.1 == name) = true
    · rw [if_pos hk]
      simp [lookupAssoc]
    · rw [if_neg hk]
      have hne : kv.1 ≠ name := by simpa using hk
      rw [List.any_cons] at h
      simp only [hk, Bool.false_or] at h
      obtain ⟨k', v'⟩ := kv
      simp only [lookupAssoc, if_neg hne]
      exact ih h

/-- Looking up a key absent from the list finds a freshly appended
binding for it. -/
theorem lookupAssoc_absent_append {β : Type} {db : List (String × β)}
    {name : String} (v : β)
    (h : db.any (fun kv => kv.1 == name) = false) :
    lookupAssoc (db ++ [(name, v)]) name = some v := by
  induction db with
  | nil => simp [lookupAssoc]
  | cons kv rest ih =>
    rw [List.any_cons, Bool.or_eq_false_iff] at h
    have hne : kv.1 ≠ name := by simpa using h.1
    obtain ⟨k', v'⟩ := kv
    simp only [List.cons_append, lookupAssoc, if_neg hne]
    exact ih h.2

/-- Reading back the table just written to the secondary store. -/
theorem getTable_setTable (db : SecondaryDb) (name : String)
    (tbl : SecondaryTable) :
    getTable (setTable db name tbl) name = tbl := by
  unfold getTable setTable
  by_cases hany : db.any (fun kv => kv.1 == name) = true
  · rw [if_pos hany, lookupAssoc_map_set tbl hany]
    rfl
  · rw [if_neg hany,
      lookupAssoc_absent_append tbl (Bool.eq_false_iff.mpr hany)]
    rfl

/-- Every survivor of a filter satisfies the filter's predicate. -/
theorem all_filter_self {α : Type} (p : α → Bool) (l : List α) :
    (l.filter p).all p = true := by
  rw [List.all_eq_true]
  intro a ha
  exact (List.mem_filter.mp ha).2

/-- C7: deletes are idempotent — both of two consecutive deletes of the
same rowId succeed (in particular the second, whose target is already
absent), and afterwards the secondary table holds no row with that id. -/
theorem claim_C7_delete_idempotent (st : GatewayState) (table i : String) :
    (applyGateway st ⟨.DELETE, table, none, some i⟩).2 =
      .ok (.deleted (some i)) ∧
    (applyGateway (applyGateway st ⟨.DELETE, table, none, some i⟩).1
        ⟨.DELETE, table, none, some i⟩).2 = .ok (.deleted (some i)) ∧
    ((getTable
        (applyGateway (applyGateway st ⟨.DELETE, table, none, some i⟩).1
          ⟨.DELETE, table, none, some i⟩).1.secondary table).rows.all
      (fun r => !(rowId r == some i))) = true := by
  refine ⟨rfl, rfl, ?_⟩
  simp only [applyGateway, getTable_setTable]
  exact all_filter_self _ _

/-- C8: no operation of the gateway ever writes to the primary store —
after any `applyGateway` call the primary state is unchanged. -/
theorem claim_C8_primary_readonly (st : GatewayState) (p : SyncPayload) :
    (applyGateway st p).1.primary = st.primary := by
  obtain ⟨op, table, data, id⟩ := p
  cases op with
  | INSERT =>
    simp only [applyGateway]
    split <;> rfl
  | UPDATE =>
    simp only [applyGateway]
    split <;> rfl
  | DELETE => rfl
  | SYNC_ALL =>
    simp only [applyGateway]
    split <;> rfl

/-- A key bound in a row is found by `lookupCol`. -/
theorem lookupCol_isSome_of_mem {r : Row} {k : String} {v : Value}
    (h : (k, v) ∈ r) : (lookupCol r k).isSome = true := by
  induction r with
  | nil => cases h
  | cons p rest ih =>
    obtain ⟨k', v'⟩ := p
    by_cases hk : k' = k
    · simp [lookupCol, hk]
    · rcases List.mem_cons.mp h with heq | hmem
      · cases heq; exact absurd rfl hk
      · simp only [lookupCol, if_neg hk]
        exact ih hmem

/-- If the predicate rejects every binding of the key, the filtered list
does not contain the key. -/
theorem lookupCol_filter_keyfalse {l : Row} {k : String}
    {p : String × Value → Bool} (h : ∀ v, p (k, v) = false) :
    lookupCol (l.filter p) k = none := by
  induction l with
  | nil => rfl
  | cons q rest ih =>
    obtain ⟨k', v'⟩ := q
    rw [List.filter_cons]
    by_cases hk : k' = k
    · subst hk
      rw [h v']
      simpa using ih
    · split
      · simp only [lookupCol, if_neg hk]
        exact ih
      · exact ih

/-- If the predicate keeps every binding of the key, filtering does not
change the key's lookup. -/
theorem lookupCol_filter_keytrue {l : Row} {k : String}
    {p : String × Value → Bool} (h : ∀ v, p (k, v) = true) :
    lookupCol (l.filter p) k = lookupCol l k := by
  induction l with
  | nil => rfl
  | cons q rest ih =>
    obtain ⟨k', v'⟩ := q
    rw [List.filter_cons]
    by_cases hk : k' = k
    · subst hk
      rw [h v']
      simp [lookupCol, ih]
    · split
      · simp only [lookupCol, if_neg hk]
        exact ih
      · simp only [lookupCol, if_neg hk]
        exact ih

/-- `lookupCol` across an append consults the left part first. -/
theorem lookupCol_append (l1 l2 : Row) (k : String) :
    lookupCol (l1 ++ l2) k =
      match lookupCol l1 k with
      | some v => some v
      | none => lookupCol l2 k := by
  induction l1 with
  | nil => rfl
  | cons q rest ih =>
    obtain ⟨k', v'⟩ := q
    by_cases hk : k' = k
    · simp [lookupCol, hk]
    · simp only [List.cons_append, lookupCol, if_neg hk]
      exact ih

/-- Merging a row into itself is the identity: every key of the row is
found in it, so the filtered prefix is empty. -/
theorem mergeRow_self (r : Row) : mergeRow r r = r := by
  unfold mergeRow
  have : r.filter (fun p => (lookupCol r p.1).isNone) = [] := by
    rw [List.filter_eq_nil_iff]
    intro p hmem
    obtain ⟨k, v⟩ := p
    have hs := lookupCol_isSome_of_mem hmem
    simp only [Option.isSome_iff_ne_none] at hs
    simpa using hs
  rw [this, List.nil_append]

/-- Merging the same row twice is the same as merging it once. -/
theorem mergeRow_mergeRow (a r : Row) :
    mergeRow (mergeRow a r) r = mergeRow a r := by
  unfold mergeRow
  rw [List.filter_append, List.filter_filter]
  have h1 : r.filter (fun p => (lookupCol r p.1).isNone) = [] := by
    rw [List.filter_eq_nil_iff]
    intro p hmem
    obtain ⟨k, v⟩ := p
    have hs := lookupCol_isSome_of_mem hmem
    simp only [Option.isSome_iff_ne_none] at hs
    simpa using hs
  have h2 :
      (a.filter (fun p =>
        ((lookupCol r p.1).isNone && (lookupCol r p.1).isNone))) =
        a.filter (fun p => (lookupCol r p.1).isNone) := by
    apply List.filter_congr
    intro p _
    rw [Bool.and_self]
  rw [h2, h1, List.append_nil]

/-- The merged row's id: the update's id when the update binds `id`, the
old row's id otherwise. -/
theorem rowId_mergeRow_of_eq {a r : Row} (h : rowId a = rowId r) :
    rowId (mergeRow a r) = rowId r := by
  unfold rowId mergeRow at *
  rw [lookupCol_append]
  cases hr : lookupCol r "id" with
  | some v =>
    rw [lookupCol_filter_keyfalse (fun v' => by simp [hr])]
  | none =>
    rw [lookupCol_filter_keytrue (fun v' => by simp [hr])]
    rw [hr] at h
    rw [h]

/-- Upserting the same row twice into the stored rows equals upserting
it once. -/
theorem upsertRow_idem (rows : List Row) (r : Row) :
    upsertRow (upsertRow rows r) r = upsertRow rows r := by
  by_cases hany : rows.any (fun old => rowId old == rowId r) = true
  · obtain ⟨w, hwmem, hw⟩ := List.any_eq_true.mp hany
    have hw' : rowId w = rowId r := by simpa using hw
    have hany2 : (rows.map
        (fun old => if rowId old == rowId r then mergeRow old r else old)).any
          (fun old => rowId old == rowId r) = true := by
      apply List.any_eq_true.mpr
      refine ⟨if rowId w == rowId r then mergeRow w r else w,
        List.mem_map.mpr ⟨w, hwmem, rfl⟩, ?_⟩
      rw [if_pos (beq_iff_eq.mpr hw')]
      simp [rowId_mergeRow_of_eq hw']
    have hinner : upsertRow rows r = rows.map
        (fun old => if rowId old == rowId r then mergeRow old r else old) := by
      rw [upsertRow, if_pos hany]
    rw [hinner, upsertRow, if_pos hany2, List.map_map]
    apply List.map_congr_left
    intro x _
    by_cases hx : rowId x = rowId r
    · simp only [Function.comp_apply, if_pos (beq_iff_eq.mpr hx)]
      rw [if_pos (by simp [rowId_mergeRow_of_eq hx])]
      exact mergeRow_mergeRow x r
    · have hbx : ¬((rowId x == rowId r) = true) := by simpa using hx
      simp only [Function.comp_apply, if_neg hbx]
  · have hall : ∀ x ∈ rows, (rowId x == rowId r) = false := by
      intro x hx
      by_contra hne
      exact hany (List.any_eq_true.mpr ⟨x, hx, by simpa using hne⟩)
    have hany2 : ((rows ++ [r]).any (fun old => rowId old == rowId r)) = true :=
      List.any_eq_true.mpr ⟨r, by simp, by simp⟩
    have hinner : upsertRow rows r = rows ++ [r] := by
      rw [upsertRow, if_neg hany]
    rw [hinner, upsertRow, if_pos hany2, List.map_append]
    have h1 : rows.map
        (fun old => if rowId old == rowId r then mergeRow old r else old) =
        rows.map id := by
      apply List.map_congr_left
      intro x hx
      rw [if_neg (by simp [hall x hx])]
      rfl
    rw [h1, List.map_id]
    simp [mergeRow_self]

/-- The retry loop preserves the shape of the payload: starting from an
object payload, the accepted payload is still an object (column removal
maps objects to objects). -/
theorem upsertStep_obj_sent (respond : Respond) :
    ∀ (fuel attempt : Nat) (r : Row) (dropped : List String) (ok : UpsertOk),
      (upsertStep respond fuel attempt (.obj r) dropped).1 = .ok ok →
      ∃ r', ok.sent = .obj r' := by
  intro fuel
  induction fuel with
  | zero =>
    intro attempt r dropped ok h
    simp [upsertStep] at h
  | succ n ih =>
    intro attempt r dropped ok h
    cases hresp : respond attempt (.obj r) with
    | none =>
      simp only [upsertStep, hresp] at h
      cases h
      exact ⟨r, rfl⟩
    | some e =>
      simp only [upsertStep, hresp] at h
      split at h
      · split at h
        · split at h
          · split at h
            · cases h
            · exact ih (attempt + 1) (removeFromRow r _) _ ok h
          · cases h
        · cases h
      · cases h

/-- A successful single-row upsert into the schema-checking store is
idempotent: running it again from the resulting table returns the same
table and the same dropped columns. -/
theorem upsertIntoStore_obj_idem {tbl tbl2 : SecondaryTable} {n : String}
    {r : Row} {d : List String}
    (h : upsertIntoStore tbl n (.obj r) = .ok (tbl2, d)) :
    upsertIntoStore tbl2 n (.obj r) = .ok (tbl2, d) := by
  unfold upsertIntoStore at h ⊢
  cases hu : (upsertWithAutoDrop (schemaRespond tbl.schema n) (.obj r)).1 with
  | error e =>
    rw [hu] at h
    exact absurd h (by simp)
  | ok ok =>
    rw [hu] at h
    obtain ⟨r', hr'⟩ :=
      upsertStep_obj_sent (schemaRespond tbl.schema n) 10 0 r [] ok hu
    injection h with hpair
    injection hpair with h1 h2
    subst h1
    subst h2
    dsimp only
    rw [hu]
    simp only [hr', rowsOf, applyRows, List.foldl]
    rw [upsertRow_idem]

/-- Overwriting a present key keeps the key present. -/
theorem any_key_map_set {db : SecondaryDb} {name : String}
    (tbl : SecondaryTable)
    (h : db.any (fun kv => kv.1 == name) = true) :
    (db.map (fun kv => if kv.1 == name then (name, tbl) else kv)).any
      (fun kv => kv.1 == name) = true := by
  obtain ⟨kv, hmem, hk⟩ := List.any_eq_true.mp h
  apply List.any_eq_true.mpr
  refine ⟨if kv.1 == name then (name, tbl) else kv,
    List.mem_map.mpr ⟨kv, hmem, rfl⟩, ?_⟩
  rw [if_pos hk]
  simp

/-- Writing a table twice to the secondary store keeps only the second
write. -/
theorem setTable_setTable (db : SecondaryDb) (n : String)
    (t t' : SecondaryTable) :
    setTable (setTable db n t) n t' = setTable db n t' := by
  by_cases hany : db.any (fun kv => kv.1 == n) = true
  · have h2 := any_key_map_set t hany
    unfold setTable
    rw [if_pos hany, if_pos h2, if_pos hany, List.map_map]
    apply List.map_congr_left
    intro kv _
    simp only [Function.comp_apply]
    by_cases hk : (kv.1 == n) = true
    · rw [if_pos hk,
        if_pos (show (((n, t) : String × SecondaryTable).1 == n) = true by simp),
        if_pos hk]
    · rw [if_neg hk]
  · have hall : ∀ kv ∈ db, (kv.1 == n) = false := by
      intro kv hkv
      by_contra hne
      exact hany (List.any_eq_true.mpr ⟨kv, hkv, by simpa using hne⟩)
    have h2 : ((db ++ [(n, t)]).any (fun kv => kv.1 == n)) = true :=
      List.any_eq_true.mpr ⟨(n, t), by simp, by simp⟩
    unfold setTable
    rw [if_neg hany, if_pos h2, if_neg hany, List.map_append]
    have h3 : db.map (fun kv => if kv.1 == n then (n, t') else kv) =
        db.map id := by
      apply List.map_congr_left
      intro kv hkv
      rw [if_neg (by simp [hall kv hkv])]
      rfl
    rw [h3, List.map_id]
    simp

/-- C6: applying the same Create or Update request twice with an
identical row leaves the secondary store exactly as a single application
does (in particular the row stored under that id is the same). -/
theorem claim_C6_upsert_idempotent (st : GatewayState) (op : SyncOperation)
    (table : String) (r : Row) (hop : op = .INSERT ∨ op = .UPDATE) :
    (applyGateway (applyGateway st ⟨op, table, some (.obj r), none⟩).1
      ⟨op, table, some (.obj r), none⟩).1.secondary =
    (applyGateway st ⟨op, table, some (.obj r), none⟩).1.secondary := by
  rcases hop with rfl | rfl <;>
  · simp only [applyGateway, Option.getD_some]
    cases hu : upsertIntoStore (getTable st.secondary table) table (.obj r) with
    | error e => simp [hu]
    | ok pr =>
      obtain ⟨tbl2, d⟩ := pr
      simp only [hu]
      rw [getTable_setTable, upsertIntoStore_obj_idem hu]
      dsimp only
      rw [setTable_setTable]

/-- Witness for C6: the auto-drop scenario's Create applied twice leaves
the secondary store as after one application. -/
theorem claim_C6_witness :
    (applyGateway (applyGateway c1State c1Payload).1 c1Payload).1.secondary =
      (applyGateway c1State c1Payload).1.secondary :=
  claim_C6_upsert_idempotent c1State .INSERT "students" c1Row (Or.inl rfl)

/-- With sufficient fuel, the sizes of the slices sum to the length of
the sliced list. -/
theorem chunks100Go_sum {α : Type} :
    ∀ (fuel : Nat) (l : List α), l.length ≤ fuel →
      ((chunks100Go fuel l).map List.length).sum = l.length := by
  intro fuel
  induction fuel with
  | zero =>
    intro l h
    cases l with
    | nil => rfl
    | cons x xs => simp at h
  | succ n ih =>
    intro l h
    cases l with
    | nil => rfl
    | cons x xs =>
      simp only [chunks100Go, List.map_cons, List.sum_cons]
      rw [ih ((x :: xs).drop 100) (by simp at h ⊢; omega)]
      simp only [List.length_take, List.length_drop, List.length_cons]
      omega

/-- The sizes of the SYNC_ALL batches sum to the number of fetched
rows. -/
theorem chunks100_sum {α : Type} (l : List α) :
    ((chunks100 l).map List.length).sum = l.length :=
  chunks100Go_sum l.length l le_rfl

/-- With sufficient fuel, the number of slices is the length divided by
100, rounded up. -/
theorem chunks100Go_count {α : Type} :
    ∀ (fuel : Nat) (l : List α), l.length ≤ fuel →
      (chunks100Go fuel l).length = (l.length + 99) / 100 := by
  intro fuel
  induction fuel with
  | zero =>
    intro l h
    cases l with
    | nil => simp [chunks100Go]
    | cons x xs => simp at h
  | succ n ih =>
    intro l h
    cases l with
    | nil => simp [chunks100Go]
    | cons x xs =>
      simp only [chunks100Go, List.length_cons]
      rw [ih ((x :: xs).drop 100) (by simp at h ⊢; omega)]
      simp only [List.length_drop, List.length_cons]
      omega

/-- The number of SYNC_ALL batches is the fetched row count divided by
100, rounded up. -/
theorem chunks100_count {α : Type} (l : List α) :
    (chunks100 l).length = (l.length + 99) / 100 :=
  chunks100Go_count l.length l le_rfl

set_option maxRecDepth 10000 in
/-- C4: a ResyncAll over 250 primary rows issues exactly the batches of
sizes 100, 100, 50 in order and returns row count 250; in general the
batch sizes sum to the fetched row count, there are ceil(n/100) batches,
and a successful ResyncAll reports exactly the fetched row count. -/
theorem claim_C4_resyncall_batching :
    (applyGateway c4State c4Payload).2 = .ok (.syncedAll 250 "students" []) ∧
    ((chunks100 (selectRows (columnsArg c4Payload.table)
        ((lookupAssoc c4State.primary c4Payload.table).getD []))).map
      List.length) = [100, 100, 50] ∧
    (∀ (α : Type) (l : List α),
      ((chunks100 l).map List.length).sum = l.length) ∧
    (∀ (α : Type) (l : List α),
      (chunks100 l).length = (l.length + 99) / 100) ∧
    (∀ (st : GatewayState) (table : String) (cnt : Nat) (tb : String)
        (dc : List String),
      (applyGateway st ⟨.SYNC_ALL, table, none, none⟩).2 =
        .ok (.syncedAll cnt tb dc) →
      cnt = (selectRows (columnsArg table)
        ((lookupAssoc st.primary table).getD [])).length) := by
  refine ⟨by rfl, by rfl, fun α l => chunks100_sum l,
    fun α l => chunks100_count l, ?_⟩
  intro st table cnt tb dc h
  simp only [applyGateway] at h
  split at h
  · cases h
  · injection h with h'
    injection h' with h1 h2
    exact h1.symm

set_option maxRecDepth 10000 in
/-- Witness for C4's general row-count conjunct, at the 250-row
scenario. -/
theorem claim_C4_witness :
    250 = (selectRows (columnsArg "students")
      ((lookupAssoc c4State.primary "students").getD [])).length :=
  claim_C4_resyncall_batching.2.2.2.2 c4State "students" 250 "students" []
    (by rfl)

/-- C9: SYNC_ALL batches run sequentially — if the first k batches
succeed (with any prefix outcome) and batch k fails fatally from the
state they produced, then the whole run's final secondary table is
exactly the table after those k batches and its failure is batch k's
error, so no later batch was attempted. -/
theorem claim_C9_sequential_batches (n : String) (tbl : SecondaryTable)
    (acc : List String) (bs : List (List Row)) (k : Nat) :
    ∀ (hk : k < bs.length) (t' : SecondaryTable) (d' : List String)
      (pb : List (List String)) (e : SyncError),
      runBatches n tbl acc (bs.take k) = ⟨t', d', pb, none⟩ →
      upsertIntoStore t' n (Jx.arr ((bs.get ⟨k, hk⟩).map JItem.obj)) =
        .error e →
      (runBatches n tbl acc bs).table = t' ∧
      (runBatches n tbl acc bs).failure = some e := by
  induction k generalizing tbl acc bs with
  | zero =>
    intro hk t' d' pb e hpre hfail
    cases bs with
    | nil => simp at hk
    | cons b bs' =>
      simp only [List.take_zero, runBatches] at hpre
      injection hpre with h1 h2 h3 h4
      subst h1
      simp only [runBatches]
      have hfail' : upsertIntoStore tbl n (Jx.arr (List.map JItem.obj b)) =
          Except.error e := hfail
      rw [hfail']
      exact ⟨rfl, rfl⟩
  | succ k ih =>
    intro hk t' d' pb e hpre hfail
    cases bs with
    | nil => simp at hk
    | cons b bs' =>
      rw [List.take_succ_cons] at hpre
      simp only [runBatches] at hpre ⊢
      cases hu : upsertIntoStore tbl n (Jx.arr (b.map JItem.obj)) with
      | error e0 =>
        rw [hu] at hpre
        injection hpre with h1 h2 h3 h4
        exact absurd h4 (by simp)
      | ok pr =>
        obtain ⟨tbl2, d⟩ := pr
        rw [hu] at hpre
        dsimp only at hpre ⊢
        injection hpre with h1 h2 h3 h4
        have hk' : k < bs'.length := by
          simp only [List.length_cons] at hk
          omega
        have hpre' :
            runBatches n tbl2 (addAll acc d) (bs'.take k) =
              ⟨t', d', (runBatches n tbl2 (addAll acc d) (bs'.take k)).perBatch,
                none⟩ := by
          rw [← h1, ← h2, ← h4]
        exact ih tbl2 (addAll acc d) bs' hk' t' d' _ e hpre' hfail

/-- Witness for C9: with two batches of which the second exhausts the
retry budget, the run stops after the first batch with the second's
error. -/
theorem claim_C9_witness :
    (runBatches "t" c9Tbl [] c9Bs).table = ⟨["id"], [c9Ok]⟩ ∧
    (runBatches "t" c9Tbl [] c9Bs).failure = some c9Err :=
  claim_C9_sequential_batches "t" c9Tbl [] c9Bs 1 (by decide)
    ⟨["id"], [c9Ok]⟩ [] [[]] c9Err (by rfl) (by rfl)

/-- Membership in the deduplicating union: a column is in `addAll acc d`
iff it is in either argument. -/
theorem mem_addAll (acc d : List String) (c : String) :
    c ∈ addAll acc d ↔ c ∈ acc ∨ c ∈ d := by
  induction d generalizing acc with
  | nil => simp [addAll]
  | cons x xs ih =>
    simp only [addAll, List.foldl_cons] at ih ⊢
    rw [ih]
    by_cases hx : x ∈ acc
    · rw [if_pos hx]
      constructor
      · rintro (h | h)
        · exact Or.inl h
        · exact Or.inr (List.mem_cons_of_mem x h)
      · rintro (h | h)
        · exact Or.inl h
        · rcases List.mem_cons.mp h with rfl | h2
          · exact Or.inl hx
          · exact Or.inr h2
    · rw [if_neg hx]
      simp only [List.mem_append, List.mem_cons, List.mem_singleton]
      tauto

/-- The deduplicating union keeps the accumulator duplicate-free. -/
theorem nodup_addAll (acc d : List String) (h : acc.Nodup) :
    (addAll acc d).Nodup := by
  induction d generalizing acc with
  | nil => exact h
  | cons x xs ih =>
    simp only [addAll, List.foldl_cons] at ih ⊢
    apply ih
    by_cases hx : x ∈ acc
    · rwa [if_pos hx]
    · rw [if_neg hx]
      rw [List.nodup_append]
      exact ⟨h, List.nodup_singleton x, by simpa using hx⟩

/-- The accumulated dropped set of a batch run is duplicate-free and
holds exactly the accumulator's columns plus the columns dropped by the
batches that ran (the per-batch lists), whether or not the run failed. -/
theorem runBatches_dropped_spec (n : String) :
    ∀ (bs : List (List Row)) (tbl : SecondaryTable) (acc : List String),
      acc.Nodup →
      (runBatches n tbl acc bs).dropped.Nodup ∧
      (∀ c, c ∈ (runBatches n tbl acc bs).dropped ↔
        c ∈ acc ∨ ∃ dl ∈ (runBatches n tbl acc bs).perBatch, c ∈ dl) := by
  intro bs
  induction bs with
  | nil =>
    intro tbl acc hacc
    exact ⟨hacc, by simp [runBatches]⟩
  | cons b bs' ih =>
    intro tbl acc hacc
    simp only [runBatches]
    cases hu : upsertIntoStore tbl n (Jx.arr (b.map JItem.obj)) with
    | error e =>
      dsimp only
      exact ⟨hacc, by simp⟩
    | ok pr =>
      obtain ⟨tbl2, d⟩ := pr
      dsimp only
      obtain ⟨ih1, ih2⟩ := ih tbl2 (addAll acc d) (nodup_addAll acc d hacc)
      refine ⟨ih1, ?_⟩
      intro c
      rw [ih2 c, mem_addAll]
      constructor
      · rintro ((h | h) | ⟨dl, hdl, hc⟩)
        · exact Or.inl h
        · exact Or.inr ⟨d, List.mem_cons_self d _, h⟩
        · exact Or.inr ⟨dl, List.mem_cons_of_mem d hdl, hc⟩
      · rintro (h | ⟨dl, hdl, hc⟩)
        · exact Or.inl (Or.inl h)
        · rcases List.mem_cons.mp hdl with rfl | h2
          · exact Or.inl (Or.inr hc)
          · exact Or.inr ⟨dl, h2, hc⟩

/-- C5: the ResyncAll read is projected exactly as the spec prescribes —
to the ColumnAllowList entry when one exists (the source's
comma-separated select strings parse to precisely the spec's column
lists) and to all columns otherwise — and on success the reported
droppedColumns is the duplicate-free union of the columns dropped across
the run's batches. -/
theorem claim_C5_projection_and_dropped_union :
    (∀ (table : String) (rows : List Row),
      selectRows (columnsArg table) rows = specSelect table rows) ∧
    (∀ (st : GatewayState) (table : String) (cnt : Nat) (tb : String)
        (dropped : List String),
      (applyGateway st ⟨.SYNC_ALL, table, none, none⟩).2 =
        .ok (.syncedAll cnt tb dropped) →
      dropped.Nodup ∧
      (∀ c, c ∈ dropped ↔ ∃ dl ∈ (runBatches table
          (getTable st.secondary table) []
          (chunks100 (selectRows (columnsArg table)
            ((lookupAssoc st.primary table).getD [])))).perBatch, c ∈ dl)) := by
  constructor
  · intro table rows
    simp only [columnsArg, specSelect, tableColumnsSrc, specColumnAllowList,
      lookupAssoc]
    split_ifs <;> rfl
  · intro st table cnt tb dropped h
    simp only [applyGateway] at h
    split at h
    · cases h
    · rename_i heq
      injection h with h1
      injection h1 with h2 h3 h4
      subst h4
      obtain ⟨hnd, hmem⟩ := runBatches_dropped_spec table
        (chunks100 (selectRows (columnsArg table)
          ((lookupAssoc st.primary table).getD [])))
        (getTable st.secondary table) [] List.nodup_nil
      refine ⟨hnd, ?_⟩
      intro c
      rw [hmem c]
      simp

set_option maxRecDepth 10000 in
/-- Witness for C5, at the 250-row ResyncAll scenario (no columns are
dropped there, and the union over the three batches is empty). -/
theorem claim_C5_witness :
    ([] : List String).Nodup ∧
    (∀ c, c ∈ ([] : List String) ↔ ∃ dl ∈ (runBatches "students"
        (getTable c4State.secondary "students") []
        (chunks100 (selectRows (columnsArg "students")
          ((lookupAssoc c4State.primary "students").getD [])))).perBatch,
      c ∈ dl) :=
  claim_C5_projection_and_dropped_union.2 c4State "students" 250 "students" []
    (by rfl)

/-- Invariant of the retry loop: starting from a duplicate-free dropped
list, the dropped list recorded in the outcome is duplicate-free, the
attempt trace is a chain of strict one-fresh-column extensions, is no
longer than the fuel, and begins (when non-empty) with the initial
payload and dropped list. -/
theorem upsertStep_trace_spec (respond : Respond) :
    ∀ (fuel attempt : Nat) (data : Jx) (dropped : List String),
      dropped.Nodup →
      (droppedOf (upsertStep respond fuel attempt data dropped).1).Nodup ∧
      List.Chain' dropStep (upsertStep respond fuel attempt data dropped).2 ∧
      (upsertStep respond fuel attempt data dropped).2.length ≤ fuel ∧
      ((upsertStep respond fuel attempt data dropped).2 = [] ∨
        ∃ rest, (upsertStep respond fuel attempt data dropped).2 =
          (data, dropped) :: rest) := by
  intro fuel
  induction fuel with
  | zero =>
    intro attempt data dropped hnd
    exact ⟨hnd, List.chain'_nil, Nat.le_refl 0, Or.inl rfl⟩
  | succ n ih =>
    intro attempt data dropped hnd
    cases hresp : respond attempt data with
    | none =>
      simp only [upsertStep, hresp]
      exact ⟨hnd, List.chain'_singleton _, by simp, Or.inr ⟨[], rfl⟩⟩
    | some e =>
      simp only [upsertStep, hresp]
      by_cases hc : e.code = some "PGRST204"
      · rw [if_pos hc]
        by_cases ht : msgTruthy e.message = true
        · rw [if_pos ht]
          cases hx : extractMissingColumn (e.message.getD "") with
          | none =>
            exact ⟨List.nodup_nil, List.chain'_singleton _, by simp,
              Or.inr ⟨[], rfl⟩⟩
          | some c =>
            dsimp only
            by_cases hmem : c ∈ dropped
            · rw [if_pos hmem]
              exact ⟨List.nodup_nil, List.chain'_singleton _, by simp,
                Or.inr ⟨[], rfl⟩⟩
            · rw [if_neg hmem]
              have hnd' : (dropped ++ [c]).Nodup := by
                rw [List.nodup_append]
                exact ⟨hnd, List.nodup_singleton c, by simpa using hmem⟩
              obtain ⟨ih1, ih2, ih3, ih4⟩ := ih (attempt + 1)
                (removeColumnFromData data c) (dropped ++ [c]) hnd'
              refine ⟨ih1, ?_, ?_, Or.inr ⟨_, rfl⟩⟩
              · refine List.chain'_cons'.mpr ⟨?_, ih2⟩
                intro b hb
                rcases ih4 with h0 | ⟨rest, hr⟩
                · rw [h0] at hb
                  simp at hb
                · rw [hr] at hb
                  simp only [List.head?_cons, Option.mem_def,
                    Option.some.injEq] at hb
                  subst hb
                  exact ⟨c, hmem, rfl⟩
              · simpa using Nat.succ_le_succ ih3
        · rw [if_neg ht]
          exact ⟨List.nodup_nil, List.chain'_singleton _, by simp,
            Or.inr ⟨[], rfl⟩⟩
      · rw [if_neg hc]
        exact ⟨List.nodup_nil, List.chain'_singleton _, by simp,
          Or.inr ⟨[], rfl⟩⟩

/-- C10: the dropped-column list never holds duplicates, every retry
strictly extends it by one fresh column (so each of the at most 10
attempts beyond the first corresponds to one new dropped column), and an
error naming an already-dropped column is rethrown immediately instead
of retrying. -/
theorem claim_C10_fresh_drops_only :
    (∀ (respond : Respond) (raw : Jx),
      (droppedOf (upsertWithAutoDrop respond raw).1).Nodup ∧
      List.Chain' dropStep (upsertWithAutoDrop respond raw).2 ∧
      (upsertWithAutoDrop respond raw).2.length ≤ 10) ∧
    (∀ (respond : Respond) (fuel attempt : Nat) (data : Jx)
        (dropped : List String) (e : DbError) (c : String),
      respond attempt data = some e →
      e.code = some "PGRST204" →
      msgTruthy e.message = true →
      extractMissingColumn (e.message.getD "") = some c →
      c ∈ dropped →
      upsertStep respond (fuel + 1) attempt data dropped =
        (.error (.store e), [(data, dropped)])) := by
  constructor
  · intro respond raw
    obtain ⟨h1, h2, h3, _⟩ :=
      upsertStep_trace_spec respond 10 0 raw [] List.nodup_nil
    exact ⟨h1, h2, h3⟩
  · intro respond fuel attempt data dropped e c hresp hc ht hx hmem
    simp only [upsertStep, hresp, if_pos hc, if_pos ht, hx]
    rw [if_pos hmem]

/-- Witness for C10's immediate-rethrow conjunct: a store that keeps
naming the already-dropped column `g` is rethrown on the spot, with one
attempt traced. -/
theorem claim_C10_witness :
    upsertStep c10Respond 5 0 (Jx.obj [("id", "1")]) ["g"] =
      (.error (.store (pgrstError "g" "t")), [(Jx.obj [("id", "1")], ["g"])]) :=
  claim_C10_fresh_drops_only.2 c10Respond 4 0 (Jx.obj [("id", "1")]) ["g"]
    (pgrstError "g" "t") "g" rfl rfl (by rfl) (by rfl) (by decide)

end SyncGateway
